import Mathlib

/-!
# ia2-parent: the Kafka proxy and the SOCKS gating rule

A shallow embedding of `kafkaproxy/main.go` and `socksproxy/socksproxy.go`.

Conventions of the embedding.
* Go's `int` is the 64-bit signed integer: a value is an `Int` between `minInt`
  and `maxInt`, and an addition is followed by `wrapInt`, which wraps around as
  the machine does.
* Go strings, `[]byte` values and `error` texts are embedded as `String`.
* Pointer receivers become explicit state passing: a method returns the new
  value of its receiver.
* `sync.Mutex` is taken at the entry of `inc` and `get` and released at their
  exit, so each call is one atomic step on the statistics and no run observes
  the mutex held between two steps; it carries no field here.
-/

/-! ## The fragment of Go's `fmt` the two programs use -/

namespace Go

/-- An operand of a formatting call. -/
inductive Arg where
  | int (n : Int)
  | str (s : String)
  deriving DecidableEq, Repr

/-- Decimal rendering of an integer, as `%d` prints it. -/
def fmtInt : Int → String
  | Int.ofNat m => Nat.repr m
  | Int.negSucc m => "-" ++ Nat.repr (m + 1)

/-- How one verb renders one operand.  `%d` prints an integer, `%s` a string,
`%v` either; a verb applied to an operand of the wrong type prints Go's
`%!verb(type=value)` notice. -/
def fmtVerb (verb : Char) (a : Arg) : String :=
  match a with
  | Arg.int n =>
    if verb = 'd' ∨ verb = 'v' then fmtInt n
    else "%!" ++ String.singleton verb ++ "(int=" ++ fmtInt n ++ ")"
  | Arg.str s =>
    if verb = 's' ∨ verb = 'v' then s
    else "%!" ++ String.singleton verb ++ "(string=" ++ s ++ ")"

/-- Operands left over once the format is exhausted. -/
def fmtExtra : List Arg → String
  | [] => ""
  | Arg.int n :: rest =>
    "int=" ++ fmtInt n ++ (if rest = [] then "" else ", " ++ fmtExtra rest)
  | Arg.str s :: rest =>
    "string=" ++ s ++ (if rest = [] then "" else ", " ++ fmtExtra rest)

/-- The formatting loop of `fmt.Sprintf` over the characters of the format: a
`%` followed by a verb consumes the next operand, `%%` prints a percent sign,
every other character is copied. -/
def doPrintf : List Char → List Arg → String
  | [], [] => ""
  | [], a :: args => "%!(EXTRA " ++ fmtExtra (a :: args) ++ ")"
  | c :: rest, args =>
    if c = '%' then
      match rest, args with
      | [], _ => "%!(NOVERB)"
      | v :: rest', [] =>
        if v = '%' then "%" ++ doPrintf rest' []
        else "%!" ++ String.singleton v ++ "(MISSING)" ++ doPrintf rest' []
      | v :: rest', a :: args' =>
        if v = '%' then "%" ++ doPrintf rest' (a :: args')
        else fmtVerb v a ++ doPrintf rest' args'
    else String.singleton c ++ doPrintf rest args

/-- Go's `fmt.Sprintf`. -/
def Sprintf (format : String) (args : List Arg) : String :=
  doPrintf format.data args

end Go

namespace Kafkaproxy

open Go

/-! ## Constants (`main.go`, lines 19-30)

The three statistic kinds are declared by `iota` in a `const` block whose first
five entries are string constants: `iota` is the index of the entry in the
block, hence 5, 6 and 7. -/

def typeNumReqs : Int := 5
def typeNumGoodFwds : Int := 6
def typeNumBadFwds : Int := 7

/-- The largest and the smallest value of an `int`. -/
def maxInt : Int := 9223372036854775807
def minInt : Int := -9223372036854775808

/-- Two's-complement wrap-around of an integer to 64 bits. -/
def wrapInt (x : Int) : Int :=
  (x + 9223372036854775808) % 18446744073709551616 - 9223372036854775808

/-- An `int` value that is not the largest one: adding one does not wrap. -/
def belowMax (x : Int) : Prop := minInt ≤ x ∧ x < maxInt

instance belowMax.decidable (x : Int) : Decidable (belowMax x) := by
  unfold belowMax; infer_instance

/-- Simple statistics of the Kafka proxy (`main.go`, lines 51-56). -/
structure statistics where
  numReqs : Int
  numGoodFwds : Int
  numBadFwds : Int
  deriving DecidableEq, Repr

namespace statistics

/-- Method `inc` increments the given statistic (`main.go`, lines 59-71).  The `switch`
has no `default` branch; `++` wraps around at the largest `int`. -/
def inc (s : statistics) (statType : Int) : statistics :=
  if statType = typeNumReqs then
    { s with numReqs := wrapInt (s.numReqs + 1) }
  else if statType = typeNumGoodFwds then
    { s with numGoodFwds := wrapInt (s.numGoodFwds + 1) }
  else if statType = typeNumBadFwds then
    { s with numBadFwds := wrapInt (s.numBadFwds + 1) }
  else
    s

/-- Method `get` returns the given statistic (`main.go`, lines 74-87), together with
the receiver as the call leaves it. -/
def get (s : statistics) (statType : Int) : statistics × Int :=
  if statType = typeNumReqs then
    (s, s.numReqs)
  else if statType = typeNumGoodFwds then
    (s, s.numGoodFwds)
  else if statType = typeNumBadFwds then
    (s, s.numBadFwds)
  else
    (s, 0)

end statistics

/-! ## The fragment of `net/http` the handlers use -/

/-- The status codes `http.StatusOK`, `http.StatusBadRequest` and
`http.StatusInternalServerError`. -/
def StatusOK : Nat := 200
def StatusBadRequest : Nat := 400
def StatusInternalServerError : Nat := 500

/-- The constant `http.MethodPost`. -/
def MethodPost : String := "POST"

/-- What a handler has sent through its `http.ResponseWriter`: the status line,
once written, and the body bytes. -/
structure ResponseWriter where
  status : Option Nat
  body : String
  deriving DecidableEq, Repr

namespace ResponseWriter

/-- The writer the server hands to a handler: nothing sent yet. -/
def fresh : ResponseWriter := { status := none, body := "" }

/-- Method `WriteHeader`: the first call fixes the status, later calls are ignored. -/
def WriteHeader (w : ResponseWriter) (code : Nat) : ResponseWriter :=
  match w.status with
  | none => { w with status := some code }
  | some _ => w

/-- Method `Write`: sends the header with status 200 if none was sent, then the data. -/
def Write (w : ResponseWriter) (data : String) : ResponseWriter :=
  let w1 := w.WriteHeader StatusOK
  { w1 with body := w1.body ++ data }

/-- The status the client receives: the server sends 200 when the handler
returned without writing a header. -/
def code (w : ResponseWriter) : Nat :=
  match w.status with
  | none => StatusOK
  | some c => c

end ResponseWriter

/-- Go's `http.Error`: writes the status, then the message and a newline. -/
def httpError (w : ResponseWriter) (error : String) (code : Nat) : ResponseWriter :=
  (w.WriteHeader code).Write (error ++ "\n")

/-- Go's `fmt.Fprintf` on a response writer. -/
def Fprintf (w : ResponseWriter) (format : String) (args : List Arg) : ResponseWriter :=
  w.Write (Sprintf format args)

/-- The part of an `http.Request` the handlers look at: the method and the
outcome of `ioutil.ReadAll(r.Body)`. -/
structure Request where
  Method : String
  Body : Except String String

/-! ## The proxy (`main.go`, lines 34-42 and 89-161) -/

/-- A `kafka.Message`. -/
structure Message where
  Key : Option String
  Value : String
  deriving DecidableEq, Repr

/-- The `kafka.Writer` of the proxy, seen through the messages handed to
`WriteMessages` so far, oldest first. -/
structure Writer where
  sent : List Message
  deriving DecidableEq, Repr

/-- The collaborators outside this repository, for a payload type `W`
(`msg.WalletsByKeyID`): the empty map, its JSON decoder and encoder, and the
outcome of a `WriteMessages` call (an error text, or `none` for `nil`) given
the writer and the message. -/
structure Env (W : Type) where
  makeWallets : W
  UnmarshalJSON : String → Except String W
  Marshal : W → Except String String
  WriteMessages : Writer → Message → Option String

/-- The HTTP-to-Kafka bridge (`main.go`, lines 37-42). -/
structure kafkaProxy (W : Type) where
  writer : Writer
  stats : statistics
  addrs : W

variable {W : Type}

/-- Method `forward` forwards the currently cached addresses to the broker
(`main.go`, lines 91-108).  Returns the proxy as the call leaves it and the
error (`none` for `nil`). -/
def kafkaProxy.forward (env : Env W) (p : kafkaProxy W) : kafkaProxy W × Option String :=
  match env.Marshal p.addrs with
  | Except.error err => (p, some err)
  | Except.ok jsonStr =>
    let m : Message := { Key := none, Value := jsonStr }
    let p1 := { p with writer := { sent := p.writer.sent ++ [m] } }
    match env.WriteMessages p.writer m with
    | some err => (p1, some err)
    | none => (p1, none)

/-- The handler of `/addresses` (`main.go`, lines 112-140). -/
def getAddressesHandler (env : Env W) (p : kafkaProxy W) (w : ResponseWriter)
    (r : Request) : kafkaProxy W × ResponseWriter :=
  let p1 := { p with stats := p.stats.inc typeNumReqs }
  if r.Method ≠ MethodPost then
    (p1, httpError w "only POST requests are accepted" StatusBadRequest)
  else
    match r.Body with
    | Except.error err => (p1, httpError w err StatusInternalServerError)
    | Except.ok body =>
      match env.UnmarshalJSON body with
      | Except.error err => (p1, httpError w err StatusBadRequest)
      | Except.ok _addrs =>
        match p1.forward env with
        | (p2, some err) =>
          let w1 := httpError w (Sprintf "failed to forward addresses: %s" [Arg.str err])
            StatusInternalServerError
          ({ p2 with stats := p2.stats.inc typeNumBadFwds }, w1)
        | (p2, none) =>
          ({ p2 with stats := p2.stats.inc typeNumGoodFwds }, w)

/-- The handler of `/status` (`main.go`, lines 144-153).  The three `get` calls
are evaluated left to right before the write. -/
def getStatusHandler (p : kafkaProxy W) (w : ResponseWriter) (_r : Request) :
    kafkaProxy W × ResponseWriter :=
  let (s1, a) := p.stats.get typeNumReqs
  let (s2, b) := s1.get typeNumGoodFwds
  let (s3, c) := s2.get typeNumBadFwds
  ({ p with stats := s3 },
    Fprintf w ("# of forward requests: %d\n" ++
      "# of successful forwards: %d\n" ++
      "# of failed forwards: %d\n") [Arg.int a, Arg.int b, Arg.int c])

/-- The constant `envKafkaBroker`. -/
def envKafkaBroker : String := "KAFKA_BROKERS"

/-- Function `newKafkaProxy` (`main.go`, lines 157-187): `kafkaBroker` is the outcome of
`os.LookupEnv(envKafkaBroker)` and `cert` that of `tls.LoadX509KeyPair`.  The
proxy starts with zeroed statistics and an empty payload; the two error texts
are the renderings of `%q` on `envKafkaBroker`. -/
def newKafkaProxy (env : Env W) (kafkaBroker : Option String) (cert : Except String Unit) :
    Except String (kafkaProxy W) :=
  let stats : statistics := { numReqs := 0, numGoodFwds := 0, numBadFwds := 0 }
  match kafkaBroker with
  | none => Except.error "environment variable \"KAFKA_BROKERS\" not set"
  | some broker =>
    if broker = "" then Except.error "environment variable \"KAFKA_BROKERS\" empty"
    else
      match cert with
      | Except.error err => Except.error err
      | Except.ok _ =>
        Except.ok { writer := { sent := [] }, stats := stats, addrs := env.makeWallets }

/-- The states of the proxy along one run of the `/addresses` handler, in
program order: at entry, after the request is counted, after `forward`
returned, and after the forward is counted.  A run that returns early stops
the list early. -/
def getAddressesHandlerSteps (env : Env W) (p : kafkaProxy W) (r : Request) :
    List (kafkaProxy W) :=
  let p1 := { p with stats := p.stats.inc typeNumReqs }
  if r.Method ≠ MethodPost then [p, p1]
  else
    match r.Body with
    | Except.error _ => [p, p1]
    | Except.ok body =>
      match env.UnmarshalJSON body with
      | Except.error _ => [p, p1]
      | Except.ok _addrs =>
        match p1.forward env with
        | (p2, some _) => [p, p1, p2, { p2 with stats := p2.stats.inc typeNumBadFwds }]
        | (p2, none) => [p, p1, p2, { p2 with stats := p2.stats.inc typeNumGoodFwds }]

/-- The counters are non-negative and the requests seen cover the forwards
counted. -/
def statsInv (s : statistics) : Prop :=
  0 ≤ s.numReqs ∧ 0 ≤ s.numGoodFwds ∧ 0 ≤ s.numBadFwds ∧
    s.numGoodFwds + s.numBadFwds ≤ s.numReqs

instance statsInv.decidable (s : statistics) : Decidable (statsInv s) := by
  unfold statsInv; infer_instance

/-- The proxy states between handled requests, with the number of `/addresses`
requests handled so far: the state `newKafkaProxy` returns, and every state a
handler returns from such a state. -/
inductive ReachableIn (env : Env W) : Nat → kafkaProxy W → Prop where
  | start (kafkaBroker : Option String) (cert : Except String Unit) (p : kafkaProxy W) :
      newKafkaProxy env kafkaBroker cert = Except.ok p → ReachableIn env 0 p
  | addresses (n : Nat) (p : kafkaProxy W) (w : ResponseWriter) (r : Request) :
      ReachableIn env n p → ReachableIn env (n + 1) (getAddressesHandler env p w r).1
  | status (n : Nat) (p : kafkaProxy W) (w : ResponseWriter) (r : Request) :
      ReachableIn env n p → ReachableIn env n (getStatusHandler p w r).1

/-- The proxy states a run can be observed in while request number `n + 1` is
handled: any point of the `/addresses` handler started after `n` handled
requests. -/
inductive ObservableIn (env : Env W) : Nat → kafkaProxy W → Prop where
  | within (n : Nat) (p q : kafkaProxy W) (r : Request) :
      ReachableIn env n p → q ∈ getAddressesHandlerSteps env p r → ObservableIn env n q

/-! ## Handlers running side by side

Each request is served by its own goroutine.  The handler touches the shared
proxy in at most three places, each of them one atomic step: `inc` holds the
mutex over its whole body, and `forward` is one call on the writer. -/

/-- Where a goroutine serving `/addresses` stands: before the request is
counted, before `forward`, after `forward` returned `err`, or returned. -/
inductive Pc where
  | start
  | counted
  | forwarded (err : Option String)
  | done
  deriving DecidableEq, Repr

/-- The checks between the count of the request and `forward` pass
(`main.go`, lines 115-130): the method is POST, the body is read and decodes. -/
def accepted (env : Env W) (r : Request) : Bool :=
  if r.Method ≠ MethodPost then false
  else
    match r.Body with
    | Except.error _ => false
    | Except.ok body =>
      match env.UnmarshalJSON body with
      | Except.error _ => false
      | Except.ok _ => true

/-- One atomic step of a goroutine serving `r` on the shared proxy `p`
(`main.go`, lines 114, 132, 135 and 138); `none` once the handler returned. -/
def threadStep (env : Env W) (p : kafkaProxy W) (r : Request) :
    Pc → Option (kafkaProxy W × Pc)
  | Pc.start =>
    some ({ p with stats := p.stats.inc typeNumReqs },
      if accepted env r then Pc.counted else Pc.done)
  | Pc.counted => some ((p.forward env).1, Pc.forwarded (p.forward env).2)
  | Pc.forwarded (some _) => some ({ p with stats := p.stats.inc typeNumBadFwds }, Pc.done)
  | Pc.forwarded none => some ({ p with stats := p.stats.inc typeNumGoodFwds }, Pc.done)
  | Pc.done => none

/-- A goroutine run on its own for at most `n` steps. -/
def runThread (env : Env W) (r : Request) : Nat → kafkaProxy W × Pc → kafkaProxy W × Pc
  | 0, x => x
  | n + 1, x =>
    match threadStep env x.1 r x.2 with
    | none => x
    | some y => runThread env r n y

/-- A complete run of goroutines side by side: `Interleave env ts p q` holds
when some schedule of atomic steps takes the goroutines `ts` (each with its
request and where it stands) from the shared proxy `p` to `q` with every
handler returned.  Every schedule is a derivation, since `step` may pick any
goroutine that has a step left. -/
inductive Interleave (env : Env W) : List (Request × Pc) → kafkaProxy W → kafkaProxy W → Prop where
  | finished (ts : List (Request × Pc)) (p : kafkaProxy W) :
      (∀ t ∈ ts, t.2 = Pc.done) → Interleave env ts p p
  | step (before after : List (Request × Pc)) (r : Request) (pc pc1 : Pc)
      (p p1 q : kafkaProxy W) :
      threadStep env p r pc = some (p1, pc1) →
      Interleave env (before ++ (r, pc1) :: after) p1 q →
      Interleave env (before ++ (r, pc) :: after) p q

/-- The goroutines that have not counted their request yet. -/
def reqsLeft (ts : List (Request × Pc)) : Nat :=
  ts.countP (fun t => decide (t.2 = Pc.start))

/-- The goroutines that have not returned yet. -/
def fwdsLeft (ts : List (Request × Pc)) : Nat :=
  ts.countP (fun t => decide (t.2 ≠ Pc.done))

/-- The atomic steps a goroutine has left, at most. -/
def stepsLeft : Pc → Nat
  | Pc.start => 3
  | Pc.counted => 2
  | Pc.forwarded _ => 1
  | Pc.done => 0

/-- The atomic steps the goroutines have left altogether, at most. -/
def workLeft (ts : List (Request × Pc)) : Nat :=
  (ts.map fun t => stepsLeft t.2).sum

/-- The goroutines serving the requests `rs`, none of them started. -/
def spawn (rs : List Request) : List (Request × Pc) :=
  rs.map fun r => (r, Pc.start)

/-- The three counters are `int` values. -/
def inRange (s : statistics) : Prop :=
  (minInt ≤ s.numReqs ∧ s.numReqs ≤ maxInt) ∧
  (minInt ≤ s.numGoodFwds ∧ s.numGoodFwds ≤ maxInt) ∧
  (minInt ≤ s.numBadFwds ∧ s.numBadFwds ≤ maxInt)

/-! ## A reference instance of the collaborators

The payload follows the data model of the wallet address set: key identifiers
mapped to sequences of address strings.  The codec reads and writes compact
JSON objects of string arrays whose strings hold no quote or escape. -/

namespace Reference

abbrev Wallets := List (String × List String)

def quote (s : String) : String := "\"" ++ s ++ "\""

def encodeArray (l : List String) : String :=
  "[" ++ ",".intercalate (l.map quote) ++ "]"

def encode (w : Wallets) : String :=
  "\x7b" ++ ",".intercalate (w.map fun kv => quote kv.1 ++ ":" ++ encodeArray kv.2) ++ "\x7d"

/-- Reads one quoted string; returns it with the rest of the input. -/
def parseString : List Char → Option (String × List Char)
  | '\x22' :: rest =>
    match rest.dropWhile (fun c => c != '\x22') with
    | '\x22' :: tl => some (String.mk (rest.takeWhile (fun c => c != '\x22')), tl)
    | _ => none
  | _ => none

/-- Reads the strings of a non-empty array up to the closing bracket. -/
def parseStrings : Nat → List Char → Option (List String × List Char)
  | 0, _ => none
  | n + 1, cs =>
    match parseString cs with
    | some (s, ',' :: tl) =>
      match parseStrings n tl with
      | some (l, tl2) => some (s :: l, tl2)
      | none => none
    | some (s, ']' :: tl) => some ([s], tl)
    | _ => none

def parseArray : List Char → Option (List String × List Char)
  | '[' :: ']' :: tl => some ([], tl)
  | '[' :: tl => parseStrings tl.length tl
  | _ => none

/-- Reads the members of a non-empty object up to the closing brace. -/
def parseMembers : Nat → List Char → Option (Wallets × List Char)
  | 0, _ => none
  | n + 1, cs =>
    match parseString cs with
    | some (k, ':' :: tl) =>
      match parseArray tl with
      | some (v, ',' :: tl2) =>
        match parseMembers n tl2 with
        | some (w, tl3) => some ((k, v) :: w, tl3)
        | none => none
      | some (v, '\x7d' :: tl2) => some ([(k, v)], tl2)
      | _ => none
    | _ => none

def decode (body : String) : Except String Wallets :=
  match body.data with
  | ['\x7b', '\x7d'] => Except.ok []
  | '\x7b' :: tl =>
    match parseMembers tl.length tl with
    | some (w, []) => Except.ok w
    | _ => Except.error "invalid character in JSON input"
  | _ => Except.error "invalid character in JSON input"

/-- A broker that accepts every message. -/
def env : Env Wallets :=
  { makeWallets := []
    UnmarshalJSON := decode
    Marshal := fun w => Except.ok (encode w)
    WriteMessages := fun _ _ => none }

/-- A broker that refuses every message. -/
def envDown : Env Wallets :=
  { env with WriteMessages := fun _ _ => some "dial tcp: connection refused" }

/-- The proxy `newKafkaProxy` returns for the reference collaborators. -/
def proxy : kafkaProxy Wallets :=
  { writer := { sent := [] }
    stats := { numReqs := 0, numGoodFwds := 0, numBadFwds := 0 }
    addrs := [] }

/-- A proxy whose request counter stands at the largest `int`. -/
def proxyAtMax : kafkaProxy Wallets :=
  { writer := { sent := [] }
    stats := { numReqs := maxInt, numGoodFwds := 0, numBadFwds := 0 }
    addrs := [] }

/-- A submission of two addresses under one key. -/
def post : Request :=
  { Method := "POST", Body := Except.ok "\x7b\"k1\":[\"10.0.0.1\",\"10.0.0.2\"]\x7d" }

end Reference

end Kafkaproxy

/-! ## The SOCKS gating rule (`socksproxy.go`) -/

namespace Socksproxy

open Go

/-- A `net.IP`: a slice of bytes, of length 4 or 16 for a valid address. -/
abbrev IP := List (Fin 256)

def IPv4len : Nat := 4
def IPv6len : Nat := 16

/-- The 12 bytes that precede an IPv4 address written in IPv6 form. -/
def v4InV6Prefix : IP := [0, 0, 0, 0, 0, 0, 0, 0, 0, 0, 0xff, 0xff]

/-- Go's `net.IP.Equal`: byte equality for equal lengths; an IPv4 address and the
same address in IPv6 form are equal. -/
def IP.Equal (ip x : IP) : Bool :=
  if ip.length = x.length then ip == x
  else if ip.length = IPv4len ∧ x.length = IPv6len then
    x.take 12 == v4InV6Prefix && ip == x.drop 12
  else if ip.length = IPv6len ∧ x.length = IPv4len then
    ip.take 12 == v4InV6Prefix && ip.drop 12 == x
  else false

/-- The type `socks5.AddrSpec`. -/
structure AddrSpec where
  FQDN : String
  IP : IP
  Port : Int
  deriving DecidableEq, Repr

/-- The fields of `socks5.Request` the rule reads. -/
structure Request where
  RemoteAddr : AddrSpec
  DestAddr : AddrSpec
  deriving DecidableEq, Repr

def allowed : Bool := true
def denied : Bool := false

/-- The rule (`socksproxy.go`, lines 17-20). -/
structure myRule where
  addrs : List IP
  fqdns : List String
  deriving DecidableEq, Repr

/-- Go's `log.Printf` on the standard logger: one more line, whose text is the
formatted message. -/
def logPrintf (log : List String) (format : String) (args : List Arg) : List String :=
  log ++ [Sprintf format args]

/-- Function `logConn` (`socksproxy.go`, lines 22-33).  `ipString` is `net.IP.String`,
which `%s` calls on an address. -/
def logConn (ipString : IP → String) (log : List String) (allowed : Bool)
    (from_ to_ : AddrSpec) : List String :=
  let pfx := if allowed then "Allowing" else "Denying"
  logPrintf log "%s connection request from %s:%d (%s) to %s:%d (%s)."
    [Arg.str pfx,
      Arg.str (ipString from_.IP), Arg.int from_.Port, Arg.str from_.FQDN,
      Arg.str (ipString to_.IP), Arg.int to_.Port, Arg.str to_.FQDN]

variable {Ctx : Type}

/-- The first loop of `Allow` (`socksproxy.go`, lines 36-41): `some` is the
early return, `none` means the loop ran to its end. -/
def Allow.rangeAddrs (ipString : IP → String) (ctx : Ctx) (req : Request)
    (log : List String) : List IP → Option ((Ctx × Bool) × List String)
  | [] => none
  | addr :: rest =>
    if req.DestAddr.IP.Equal addr then
      some ((ctx, allowed), logConn ipString log allowed req.RemoteAddr req.DestAddr)
    else Allow.rangeAddrs ipString ctx req log rest

/-- The second loop of `Allow` (`socksproxy.go`, lines 42-47). -/
def Allow.rangeFqdns (ipString : IP → String) (ctx : Ctx) (req : Request)
    (log : List String) : List String → Option ((Ctx × Bool) × List String)
  | [] => none
  | fqdn :: rest =>
    if req.DestAddr.FQDN = fqdn then
      some ((ctx, allowed), logConn ipString log allowed req.RemoteAddr req.DestAddr)
    else Allow.rangeFqdns ipString ctx req log rest

/-- Method `myRule.Allow` (`socksproxy.go`, lines 35-50): the returned context and
decision, and the log as the call leaves it. -/
def myRule.Allow (ipString : IP → String) (m : myRule) (ctx : Ctx) (req : Request)
    (log : List String) : (Ctx × Bool) × List String :=
  match Allow.rangeAddrs ipString ctx req log m.addrs with
  | some res => res
  | none =>
    match Allow.rangeFqdns ipString ctx req log m.fqdns with
    | some res => res
    | none => ((ctx, denied), logConn ipString log denied req.RemoteAddr req.DestAddr)

end Socksproxy

namespace Kafkaproxy

open Go

variable {W : Type}

/-! ## Theorems -/

/-! ### Shared lemmas on `forward` and the handler -/

theorem forward_stats (env : Env W) (p : kafkaProxy W) :
    (p.forward env).1.stats = p.stats := by
  unfold kafkaProxy.forward
  cases env.Marshal p.addrs with
  | error e => rfl
  | ok v =>
    dsimp only
    cases env.WriteMessages p.writer { Key := none, Value := v } <;> rfl

theorem forward_marshal_error (env : Env W) (p : kafkaProxy W) (e : String)
    (h : env.Marshal p.addrs = Except.error e) : p.forward env = (p, some e) := by
  unfold kafkaProxy.forward
  rw [h]

theorem forward_write (env : Env W) (p : kafkaProxy W) (v : String)
    (h : env.Marshal p.addrs = Except.ok v) :
    p.forward env =
      ({ p with writer := { sent := p.writer.sent ++ [{ Key := none, Value := v }] } },
        env.WriteMessages p.writer { Key := none, Value := v }) := by
  unfold kafkaProxy.forward
  rw [h]
  dsimp only
  cases env.WriteMessages p.writer { Key := none, Value := v } <;> rfl

theorem handler_decoded (env : Env W) (p : kafkaProxy W) (w : ResponseWriter) (r : Request)
    (body : String) (P : W) (hm : r.Method = MethodPost) (hb : r.Body = Except.ok body)
    (hd : env.UnmarshalJSON body = Except.ok P) :
    getAddressesHandler env p w r =
      match ({ p with stats := p.stats.inc typeNumReqs } : kafkaProxy W).forward env with
      | (p2, some err) =>
        ({ p2 with stats := p2.stats.inc typeNumBadFwds },
          httpError w (Sprintf "failed to forward addresses: %s" [Arg.str err])
            StatusInternalServerError)
      | (p2, none) => ({ p2 with stats := p2.stats.inc typeNumGoodFwds }, w) := by
  unfold getAddressesHandler
  simp only [hm, ne_eq, not_true_eq_false, if_false, hb, hd]

theorem sprintf_forward_error (e : String) :
    Sprintf "failed to forward addresses: %s" [Arg.str e] =
      "failed to forward addresses: " ++ e := by
  apply String.ext
  simp [Sprintf, doPrintf, fmtVerb, String.singleton]

theorem steps_last (env : Env W) (p : kafkaProxy W) (w : ResponseWriter) (r : Request) :
    (getAddressesHandlerSteps env p r).getLast? = some (getAddressesHandler env p w r).1 := by
  unfold getAddressesHandlerSteps getAddressesHandler
  by_cases hm : r.Method = MethodPost
  · simp only [hm, ne_eq, not_true_eq_false, if_false]
    cases r.Body with
    | error e => rfl
    | ok body =>
      dsimp only
      cases env.UnmarshalJSON body with
      | error e => rfl
      | ok P =>
        dsimp only
        rcases hf : ({ p with stats := p.stats.inc typeNumReqs } : kafkaProxy W).forward env
          with ⟨p2, _ | e⟩ <;> rfl
  · simp only [hm, ne_eq, not_false_eq_true, if_true]
    rfl

theorem sprintf_status (a b c : Int) :
    Sprintf ("# of forward requests: %d\n" ++ "# of successful forwards: %d\n" ++
        "# of failed forwards: %d\n") [Arg.int a, Arg.int b, Arg.int c] =
      "# of forward requests: " ++ fmtInt a ++ "\n" ++
      "# of successful forwards: " ++ fmtInt b ++ "\n" ++
      "# of failed forwards: " ++ fmtInt c ++ "\n" := by
  apply String.ext
  simp [Sprintf, doPrintf, fmtVerb, String.singleton]

theorem statusHandler_eq (p : kafkaProxy W) (w : ResponseWriter) (r : Request) :
    getStatusHandler p w r =
      (p, w.Write ("# of forward requests: " ++ fmtInt p.stats.numReqs ++ "\n" ++
        "# of successful forwards: " ++ fmtInt p.stats.numGoodFwds ++ "\n" ++
        "# of failed forwards: " ++ fmtInt p.stats.numBadFwds ++ "\n")) := by
  have h1 : p.stats.get typeNumReqs = (p.stats, p.stats.numReqs) := rfl
  have h2 : p.stats.get typeNumGoodFwds = (p.stats, p.stats.numGoodFwds) := rfl
  have h3 : p.stats.get typeNumBadFwds = (p.stats, p.stats.numBadFwds) := rfl
  unfold getStatusHandler Fprintf
  rw [h1]
  dsimp only
  rw [h2]
  dsimp only
  rw [h3]
  dsimp only
  rw [sprintf_status]

theorem newKafkaProxy_stats (env : Env W) (kafkaBroker : Option String)
    (cert : Except String Unit) (p : kafkaProxy W)
    (h : newKafkaProxy env kafkaBroker cert = Except.ok p) :
    p.stats = { numReqs := 0, numGoodFwds := 0, numBadFwds := 0 } ∧
      p.addrs = env.makeWallets ∧ p.writer.sent = [] := by
  unfold newKafkaProxy at h
  cases kafkaBroker with
  | none => simp at h
  | some broker =>
    by_cases hb : broker = ""
    · simp [hb] at h
    · cases cert with
      | error e => simp [hb] at h
      | ok u =>
        simp only [hb, if_false] at h
        injection h with h
        subst h
        exact ⟨rfl, rfl, rfl⟩

/-- C8: the `/status` handler answers with exactly the three newline-terminated
lines "# of forward requests: r", "# of successful forwards: g" and
"# of failed forwards: b", in that order and in decimal, and returns the proxy
unchanged; on the proxy `newKafkaProxy` returns, the three numbers are 0. -/
theorem status_report (env : Env W) (p : kafkaProxy W) (r : Request) :
    (getStatusHandler p ResponseWriter.fresh r).2.body =
      "# of forward requests: " ++ fmtInt p.stats.numReqs ++ "\n" ++
      "# of successful forwards: " ++ fmtInt p.stats.numGoodFwds ++ "\n" ++
      "# of failed forwards: " ++ fmtInt p.stats.numBadFwds ++ "\n" ∧
    (getStatusHandler p ResponseWriter.fresh r).1.stats = p.stats ∧
    (∀ (n : Nat), fmtInt n = Nat.repr n) ∧
    (∀ kafkaBroker cert q, newKafkaProxy env kafkaBroker cert = Except.ok q →
      (getStatusHandler q ResponseWriter.fresh r).2.body =
        "# of forward requests: 0\n# of successful forwards: 0\n# of failed forwards: 0\n") := by
  refine ⟨?_, ?_, fun n => rfl, ?_⟩
  · rw [statusHandler_eq]
    simp [ResponseWriter.Write, ResponseWriter.WriteHeader, ResponseWriter.fresh]
  · rw [statusHandler_eq]
  · intro kafkaBroker cert q h
    rw [statusHandler_eq, (newKafkaProxy_stats env kafkaBroker cert q h).1]
    rfl

/-- C5 (as the code behaves): on a POST that decodes to `P` and whose publish
succeeds, the one message handed to the writer has no key and carries the
encoding of the payload cached in the proxy, which the handler never updates:
`P` has no part in it. -/
theorem addresses_publishes_cached (env : Env W) (p : kafkaProxy W) (r : Request)
    (body : String) (P : W) (v : String)
    (hm : r.Method = MethodPost) (hb : r.Body = Except.ok body)
    (hd : env.UnmarshalJSON body = Except.ok P)
    (hj : env.Marshal p.addrs = Except.ok v)
    (hw : env.WriteMessages p.writer { Key := none, Value := v } = none) :
    (getAddressesHandler env p ResponseWriter.fresh r).1.writer.sent
      = p.writer.sent ++ [{ Key := none, Value := v }] ∧
    (getAddressesHandler env p ResponseWriter.fresh r).1.addrs = p.addrs := by
  rw [handler_decoded env p _ r body P hm hb hd,
    forward_write env _ v (by exact hj)]
  dsimp only
  rw [hw]
  exact ⟨rfl, rfl⟩

/-- C5 at the failing input: a fresh proxy receives the two addresses of key
"k1"; the message published is the empty object, not the encoding of the
submission. -/
theorem addresses_publishes_cached_witness :
    Reference.env.UnmarshalJSON "\x7b\"k1\":[\"10.0.0.1\",\"10.0.0.2\"]\x7d"
      = Except.ok [("k1", ["10.0.0.1", "10.0.0.2"])] ∧
    Reference.env.Marshal [("k1", ["10.0.0.1", "10.0.0.2"])]
      = Except.ok "\x7b\"k1\":[\"10.0.0.1\",\"10.0.0.2\"]\x7d" ∧
    (getAddressesHandler Reference.env Reference.proxy ResponseWriter.fresh
        Reference.post).1.writer.sent
      = [{ Key := none, Value := "\x7b\x7d" }] :=
  ⟨rfl, rfl,
    (addresses_publishes_cached Reference.env Reference.proxy Reference.post
      "\x7b\"k1\":[\"10.0.0.1\",\"10.0.0.2\"]\x7d" [("k1", ["10.0.0.1", "10.0.0.2"])]
      "\x7b\x7d" rfl rfl rfl rfl rfl).1⟩

/-- Witness of C8: the report of the proxy `newKafkaProxy` returns. -/
theorem status_report_witness :
    newKafkaProxy Reference.env (some "broker:9092") (Except.ok ()) = Except.ok Reference.proxy ∧
    (getStatusHandler Reference.proxy ResponseWriter.fresh Reference.post).2.body =
      "# of forward requests: 0\n# of successful forwards: 0\n# of failed forwards: 0\n" :=
  ⟨rfl, (status_report Reference.env Reference.proxy Reference.post).2.2.2
    (some "broker:9092") (Except.ok ()) Reference.proxy rfl⟩

/-! ### Shared lemmas on the wrap-around -/

theorem wrapInt_succ (x : Int) (h : belowMax x) : wrapInt (x + 1) = x + 1 := by
  obtain ⟨h1, h2⟩ := h
  unfold minInt at h1
  unfold maxInt at h2
  unfold wrapInt
  omega

theorem wrapInt_id (x : Int) (h1 : minInt ≤ x) (h2 : x ≤ maxInt) : wrapInt x = x := by
  unfold minInt at h1
  unfold maxInt at h2
  unfold wrapInt
  omega

theorem wrapInt_range (x : Int) : minInt ≤ wrapInt x ∧ wrapInt x ≤ maxInt := by
  unfold minInt maxInt wrapInt
  omega

theorem wrapInt_wrapInt_add (a b : Int) : wrapInt (wrapInt a + b) = wrapInt (a + b) := by
  unfold wrapInt
  omega

theorem handler_numReqs (env : Env W) (p : kafkaProxy W) (w : ResponseWriter) (r : Request) :
    (getAddressesHandler env p w r).1.stats.numReqs = wrapInt (p.stats.numReqs + 1) := by
  unfold getAddressesHandler
  by_cases hm : r.Method = MethodPost
  · simp only [hm, ne_eq, not_true_eq_false, if_false]
    cases r.Body with
    | error e => rfl
    | ok body =>
      dsimp only
      cases env.UnmarshalJSON body with
      | error e => rfl
      | ok P =>
        dsimp only
        have hfs := forward_stats env ({ p with stats := p.stats.inc typeNumReqs })
        rcases hf : ({ p with stats := p.stats.inc typeNumReqs } : kafkaProxy W).forward env
          with ⟨p2, _ | e⟩
        all_goals
          rw [hf] at hfs
          simp only at hfs
          simp [hfs, statistics.inc, typeNumReqs, typeNumGoodFwds, typeNumBadFwds]
  · simp only [hm, ne_eq, not_false_eq_true, if_true]
    rfl

/-- C7 (amended): the three kinds are pairwise distinct; `inc` of a declared
kind replaces the value `get` reports for that kind by its successor wrapped to
an `int`, which is exactly one more whenever the value is below the largest
`int`, and leaves the value of every other kind alone; `inc` of any other
integer changes nothing; `get` returns its receiver unchanged and reports 0 for
an undeclared kind. -/
theorem inc_get_frame (s : statistics) (k : Int) :
    (typeNumReqs ≠ typeNumGoodFwds ∧ typeNumReqs ≠ typeNumBadFwds ∧
      typeNumGoodFwds ≠ typeNumBadFwds) ∧
    (k = typeNumReqs ∨ k = typeNumGoodFwds ∨ k = typeNumBadFwds →
      ((s.inc k).get k).2 = wrapInt ((s.get k).2 + 1) ∧
      (belowMax (s.get k).2 → ((s.inc k).get k).2 = (s.get k).2 + 1) ∧
      ∀ j : Int, j ≠ k → ((s.inc k).get j).2 = (s.get j).2) ∧
    (k ≠ typeNumReqs ∧ k ≠ typeNumGoodFwds ∧ k ≠ typeNumBadFwds →
      s.inc k = s) ∧
    (∀ j : Int, (s.get j).1 = s) ∧
    (k ≠ typeNumReqs ∧ k ≠ typeNumGoodFwds ∧ k ≠ typeNumBadFwds →
      (s.get k).2 = 0) := by
  refine ⟨by decide, ?_, ?_, ?_, ?_⟩
  · intro hk
    have hw : ((s.inc k).get k).2 = wrapInt ((s.get k).2 + 1) := by
      rcases hk with rfl | rfl | rfl <;>
        simp [statistics.inc, statistics.get, typeNumReqs, typeNumGoodFwds, typeNumBadFwds]
    refine ⟨hw, ?_, ?_⟩
    · intro hb
      rw [hw, wrapInt_succ _ hb]
    · intro j hj
      rcases hk with rfl | rfl | rfl
      all_goals
        simp only [statistics.inc, statistics.get, typeNumReqs, typeNumGoodFwds,
          typeNumBadFwds] at *
        split_ifs <;> simp_all
  · rintro ⟨h1, h2, h3⟩
    simp [statistics.inc, h1, h2, h3]
  · intro j
    simp only [statistics.get]
    split_ifs <;> rfl
  · rintro ⟨h1, h2, h3⟩
    simp [statistics.get, h1, h2, h3]

/-- Witness of C7: counting a successful forward on the counters (3, 2, 1). -/
theorem inc_get_frame_witness :
    (typeNumGoodFwds = typeNumReqs ∨ typeNumGoodFwds = typeNumGoodFwds ∨
      typeNumGoodFwds = typeNumBadFwds) ∧
    belowMax ((⟨3, 2, 1⟩ : statistics).get typeNumGoodFwds).2 ∧
    (((⟨3, 2, 1⟩ : statistics).inc typeNumGoodFwds).get typeNumGoodFwds).2
        = ((⟨3, 2, 1⟩ : statistics).get typeNumGoodFwds).2 + 1 :=
  ⟨Or.inr (Or.inl rfl), by decide,
    ((inc_get_frame ⟨3, 2, 1⟩ typeNumGoodFwds).2.1 (Or.inr (Or.inl rfl))).2.1 (by decide)⟩

/-- C7 as stated fails: at the largest `int` the request counter wraps to the
smallest one, which is not one more. -/
theorem inc_get_wraps :
    (((⟨maxInt, 0, 0⟩ : statistics).inc typeNumReqs).get typeNumReqs).2 = minInt ∧
    (((⟨maxInt, 0, 0⟩ : statistics).inc typeNumReqs).get typeNumReqs).2
      ≠ ((⟨maxInt, 0, 0⟩ : statistics).get typeNumReqs).2 + 1 := by
  decide

/-- C2 (amended): a POST whose body is read and decodes, and whose publish
succeeds, is answered with status 200 and an empty body and leaves `numBadFwds`
unchanged; it replaces `numReqs` and `numGoodFwds` by their successors wrapped
to an `int`, which is exactly one more for a counter below the largest
`int`. -/
theorem addresses_success (env : Env W) (p : kafkaProxy W) (r : Request)
    (body : String) (P : W) (v : String)
    (hm : r.Method = MethodPost) (hb : r.Body = Except.ok body)
    (hd : env.UnmarshalJSON body = Except.ok P)
    (hj : env.Marshal p.addrs = Except.ok v)
    (hw : env.WriteMessages p.writer { Key := none, Value := v } = none) :
    (getAddressesHandler env p ResponseWriter.fresh r).1.stats.numReqs
      = wrapInt (p.stats.numReqs + 1) ∧
    (belowMax p.stats.numReqs →
      (getAddressesHandler env p ResponseWriter.fresh r).1.stats.numReqs
        = p.stats.numReqs + 1) ∧
    (getAddressesHandler env p ResponseWriter.fresh r).1.stats.numGoodFwds
      = wrapInt (p.stats.numGoodFwds + 1) ∧
    (belowMax p.stats.numGoodFwds →
      (getAddressesHandler env p ResponseWriter.fresh r).1.stats.numGoodFwds
        = p.stats.numGoodFwds + 1) ∧
    (getAddressesHandler env p ResponseWriter.fresh r).1.stats.numBadFwds
      = p.stats.numBadFwds ∧
    (getAddressesHandler env p ResponseWriter.fresh r).2.code = 200 ∧
    (getAddressesHandler env p ResponseWriter.fresh r).2.body = "" := by
  have hgood : (getAddressesHandler env p ResponseWriter.fresh r).1.stats.numGoodFwds
      = wrapInt (p.stats.numGoodFwds + 1) := by
    rw [handler_decoded env p _ r body P hm hb hd,
      forward_write env _ v (by exact hj)]
    dsimp only
    rw [hw]
    simp [statistics.inc, typeNumReqs, typeNumGoodFwds]
  refine ⟨handler_numReqs env p _ r,
    fun hr => by rw [handler_numReqs, wrapInt_succ _ hr],
    hgood, fun hg => by rw [hgood, wrapInt_succ _ hg], ?_⟩
  rw [handler_decoded env p _ r body P hm hb hd,
    forward_write env _ v (by exact hj)]
  dsimp only
  rw [hw]
  simp [statistics.inc, typeNumReqs, typeNumGoodFwds, ResponseWriter.fresh,
    ResponseWriter.code, StatusOK]

/-- Witness of C2: a fresh proxy forwards a submission to a broker that accepts it. -/
theorem addresses_success_witness :
    Reference.post.Method = MethodPost ∧
    belowMax Reference.proxy.stats.numReqs ∧
    belowMax Reference.proxy.stats.numGoodFwds ∧
    (getAddressesHandler Reference.env Reference.proxy ResponseWriter.fresh
        Reference.post).1.stats.numReqs = Reference.proxy.stats.numReqs + 1 ∧
    (getAddressesHandler Reference.env Reference.proxy ResponseWriter.fresh
        Reference.post).1.stats.numGoodFwds = Reference.proxy.stats.numGoodFwds + 1 ∧
    (getAddressesHandler Reference.env Reference.proxy ResponseWriter.fresh
        Reference.post).1.stats.numBadFwds = Reference.proxy.stats.numBadFwds ∧
    (getAddressesHandler Reference.env Reference.proxy ResponseWriter.fresh
        Reference.post).2.code = 200 ∧
    (getAddressesHandler Reference.env Reference.proxy ResponseWriter.fresh
        Reference.post).2.body = "" :=
  have h := addresses_success Reference.env Reference.proxy Reference.post
    "\x7b\"k1\":[\"10.0.0.1\",\"10.0.0.2\"]\x7d" [("k1", ["10.0.0.1", "10.0.0.2"])]
    "\x7b\x7d" rfl rfl rfl rfl rfl
  ⟨rfl, by decide, by decide, h.2.1 (by decide), h.2.2.2.1 (by decide), h.2.2.2.2⟩

/-- C2 as stated fails: on a proxy whose request counter stands at the largest
`int`, a POST that decodes and is published leaves `numReqs` at the smallest
`int`, not one higher. -/
theorem addresses_success_wraps :
    Reference.post.Method = MethodPost ∧
    Reference.post.Body = Except.ok "\x7b\"k1\":[\"10.0.0.1\",\"10.0.0.2\"]\x7d" ∧
    Reference.env.UnmarshalJSON "\x7b\"k1\":[\"10.0.0.1\",\"10.0.0.2\"]\x7d"
      = Except.ok [("k1", ["10.0.0.1", "10.0.0.2"])] ∧
    Reference.env.Marshal Reference.proxyAtMax.addrs = Except.ok "\x7b\x7d" ∧
    Reference.env.WriteMessages Reference.proxyAtMax.writer
      { Key := none, Value := "\x7b\x7d" } = none ∧
    (getAddressesHandler Reference.env Reference.proxyAtMax ResponseWriter.fresh
        Reference.post).1.stats.numReqs = minInt ∧
    (getAddressesHandler Reference.env Reference.proxyAtMax ResponseWriter.fresh
        Reference.post).1.stats.numReqs ≠ Reference.proxyAtMax.stats.numReqs + 1 := by
  refine ⟨rfl, rfl, rfl, rfl, rfl, ?_, ?_⟩
  · rw [handler_numReqs]; decide
  · rw [handler_numReqs]; decide

/-- C3 (amended): a request that is not a POST, or a POST whose body is read and
fails to decode, is answered with status 400; nothing is handed to the writer,
the two forward counters are unchanged, and `numReqs` is replaced by its
successor wrapped to an `int`, which is exactly one more when it is below the
largest `int`. -/
theorem addresses_client_error (env : Env W) (p : kafkaProxy W) (r : Request)
    (h : r.Method ≠ MethodPost ∨
      (r.Method = MethodPost ∧
        ∃ body err, r.Body = Except.ok body ∧ env.UnmarshalJSON body = Except.error err)) :
    (getAddressesHandler env p ResponseWriter.fresh r).2.code = 400 ∧
    (getAddressesHandler env p ResponseWriter.fresh r).1.writer = p.writer ∧
    ((getAddressesHandler env p ResponseWriter.fresh r).1.stats.numReqs
        = wrapInt (p.stats.numReqs + 1) ∧
      (belowMax p.stats.numReqs →
        (getAddressesHandler env p ResponseWriter.fresh r).1.stats.numReqs
          = p.stats.numReqs + 1)) ∧
    (getAddressesHandler env p ResponseWriter.fresh r).1.stats.numGoodFwds
      = p.stats.numGoodFwds ∧
    (getAddressesHandler env p ResponseWriter.fresh r).1.stats.numBadFwds
      = p.stats.numBadFwds := by
  refine ⟨?_, ?_, ⟨handler_numReqs env p _ r,
    fun hr => by rw [handler_numReqs, wrapInt_succ _ hr]⟩, ?_, ?_⟩
  all_goals
    unfold getAddressesHandler
    rcases h with hm | ⟨hm, body, err, hb, hd⟩
    · simp [hm, statistics.inc, httpError, ResponseWriter.fresh, ResponseWriter.Write,
        ResponseWriter.WriteHeader, ResponseWriter.code, StatusBadRequest]
    · simp [hm, hb, hd, statistics.inc, httpError, ResponseWriter.fresh, ResponseWriter.Write,
        ResponseWriter.WriteHeader, ResponseWriter.code, StatusBadRequest]

/-- Witness of C3: a POST whose body is cut short. -/
theorem addresses_client_error_witness :
    belowMax Reference.proxy.stats.numReqs ∧
    (getAddressesHandler Reference.env Reference.proxy ResponseWriter.fresh
        { Method := "POST", Body := Except.ok "\x7b\"k1\":[\"10.0.0.1\"" }).2.code = 400 ∧
    (getAddressesHandler Reference.env Reference.proxy ResponseWriter.fresh
        { Method := "POST", Body := Except.ok "\x7b\"k1\":[\"10.0.0.1\"" }).1.writer
      = Reference.proxy.writer ∧
    (getAddressesHandler Reference.env Reference.proxy ResponseWriter.fresh
        { Method := "POST", Body := Except.ok "\x7b\"k1\":[\"10.0.0.1\"" }).1.stats.numReqs
      = Reference.proxy.stats.numReqs + 1 ∧
    (getAddressesHandler Reference.env Reference.proxy ResponseWriter.fresh
        { Method := "POST", Body := Except.ok "\x7b\"k1\":[\"10.0.0.1\"" }).1.stats.numGoodFwds
      = Reference.proxy.stats.numGoodFwds ∧
    (getAddressesHandler Reference.env Reference.proxy ResponseWriter.fresh
        { Method := "POST", Body := Except.ok "\x7b\"k1\":[\"10.0.0.1\"" }).1.stats.numBadFwds
      = Reference.proxy.stats.numBadFwds :=
  have h := addresses_client_error Reference.env Reference.proxy
    { Method := "POST", Body := Except.ok "\x7b\"k1\":[\"10.0.0.1\"" }
    (Or.inr ⟨rfl, "\x7b\"k1\":[\"10.0.0.1\"", "invalid character in JSON input", rfl, rfl⟩)
  ⟨by decide, h.1, h.2.1, h.2.2.1.2 (by decide), h.2.2.2⟩

/-- C3 as stated fails: on a proxy whose request counter stands at the largest
`int`, a GET leaves `numReqs` at the smallest `int`, not one higher. -/
theorem addresses_client_error_wraps :
    ({ Method := "GET", Body := Except.ok "" } : Request).Method ≠ MethodPost ∧
    (getAddressesHandler Reference.env Reference.proxyAtMax ResponseWriter.fresh
        { Method := "GET", Body := Except.ok "" }).1.stats.numReqs = minInt ∧
    (getAddressesHandler Reference.env Reference.proxyAtMax ResponseWriter.fresh
        { Method := "GET", Body := Except.ok "" }).1.stats.numReqs
      ≠ Reference.proxyAtMax.stats.numReqs + 1 := by
  refine ⟨by decide, ?_, ?_⟩
  · rw [handler_numReqs]; decide
  · rw [handler_numReqs]; decide

/-- C4 (amended): a POST whose body is read and decodes, and whose `forward`
returns the error `e` (from the encoder or from the writer), is answered with
status 500 and the body "failed to forward addresses: " followed by `e` and a
newline; `numGoodFwds` is unchanged, at most one message was handed to the
writer, and `numReqs` and `numBadFwds` are replaced by their successors wrapped
to an `int`, which is exactly one more for a counter below the largest
`int`. -/
theorem addresses_forward_error (env : Env W) (p : kafkaProxy W) (r : Request)
    (body : String) (P : W) (e : String)
    (hm : r.Method = MethodPost) (hb : r.Body = Except.ok body)
    (hd : env.UnmarshalJSON body = Except.ok P)
    (hf : env.Marshal p.addrs = Except.error e ∨
      ∃ v, env.Marshal p.addrs = Except.ok v ∧
        env.WriteMessages p.writer { Key := none, Value := v } = some e) :
    (getAddressesHandler env p ResponseWriter.fresh r).2.code = 500 ∧
    (getAddressesHandler env p ResponseWriter.fresh r).2.body
      = "failed to forward addresses: " ++ e ++ "\n" ∧
    ((getAddressesHandler env p ResponseWriter.fresh r).1.stats.numBadFwds
        = wrapInt (p.stats.numBadFwds + 1) ∧
      (belowMax p.stats.numBadFwds →
        (getAddressesHandler env p ResponseWriter.fresh r).1.stats.numBadFwds
          = p.stats.numBadFwds + 1)) ∧
    ((getAddressesHandler env p ResponseWriter.fresh r).1.stats.numReqs
        = wrapInt (p.stats.numReqs + 1) ∧
      (belowMax p.stats.numReqs →
        (getAddressesHandler env p ResponseWriter.fresh r).1.stats.numReqs
          = p.stats.numReqs + 1)) ∧
    (getAddressesHandler env p ResponseWriter.fresh r).1.stats.numGoodFwds
      = p.stats.numGoodFwds ∧
    (getAddressesHandler env p ResponseWriter.fresh r).1.writer.sent.length
      ≤ p.writer.sent.length + 1 := by
  have hbad : (getAddressesHandler env p ResponseWriter.fresh r).1.stats.numBadFwds
      = wrapInt (p.stats.numBadFwds + 1) := by
    rw [handler_decoded env p _ r body P hm hb hd]
    rcases hf with hj | ⟨v, hj, hw⟩
    · rw [forward_marshal_error env _ e (by exact hj)]
      simp [statistics.inc, typeNumReqs, typeNumGoodFwds, typeNumBadFwds]
    · rw [forward_write env _ v (by exact hj)]
      dsimp only
      rw [hw]
      simp [statistics.inc, typeNumReqs, typeNumGoodFwds, typeNumBadFwds]
  refine ⟨?_, ?_, ⟨hbad, fun hb1 => by rw [hbad, wrapInt_succ _ hb1]⟩,
    ⟨handler_numReqs env p _ r, fun hr => by rw [handler_numReqs, wrapInt_succ _ hr]⟩,
    ?_, ?_⟩
  all_goals
    rw [handler_decoded env p _ r body P hm hb hd]
    rcases hf with hj | ⟨v, hj, hw⟩
    · rw [forward_marshal_error env _ e (by exact hj)]
      simp [statistics.inc, typeNumReqs, typeNumGoodFwds, typeNumBadFwds, httpError,
        ResponseWriter.fresh, ResponseWriter.Write, ResponseWriter.WriteHeader,
        ResponseWriter.code, StatusInternalServerError, sprintf_forward_error]
    · rw [forward_write env _ v (by exact hj)]
      dsimp only
      rw [hw]
      simp [statistics.inc, typeNumReqs, typeNumGoodFwds, typeNumBadFwds, httpError,
        ResponseWriter.fresh, ResponseWriter.Write, ResponseWriter.WriteHeader,
        ResponseWriter.code, StatusInternalServerError, sprintf_forward_error]

/-- Witness of C4: a fresh proxy forwards a submission to a broker that refuses it. -/
theorem addresses_forward_error_witness :
    belowMax Reference.proxy.stats.numReqs ∧
    belowMax Reference.proxy.stats.numBadFwds ∧
    (getAddressesHandler Reference.envDown Reference.proxy ResponseWriter.fresh
        Reference.post).2.code = 500 ∧
    (getAddressesHandler Reference.envDown Reference.proxy ResponseWriter.fresh
        Reference.post).2.body
      = "failed to forward addresses: " ++ "dial tcp: connection refused" ++ "\n" ∧
    (getAddressesHandler Reference.envDown Reference.proxy ResponseWriter.fresh
        Reference.post).1.stats.numBadFwds = Reference.proxy.stats.numBadFwds + 1 ∧
    (getAddressesHandler Reference.envDown Reference.proxy ResponseWriter.fresh
        Reference.post).1.stats.numReqs = Reference.proxy.stats.numReqs + 1 ∧
    (getAddressesHandler Reference.envDown Reference.proxy ResponseWriter.fresh
        Reference.post).1.stats.numGoodFwds = Reference.proxy.stats.numGoodFwds ∧
    (getAddressesHandler Reference.envDown Reference.proxy ResponseWriter.fresh
        Reference.post).1.writer.sent.length ≤ Reference.proxy.writer.sent.length + 1 :=
  have h := addresses_forward_error Reference.envDown Reference.proxy Reference.post
    "\x7b\"k1\":[\"10.0.0.1\",\"10.0.0.2\"]\x7d" [("k1", ["10.0.0.1", "10.0.0.2"])]
    "dial tcp: connection refused" rfl rfl rfl (Or.inr ⟨"\x7b\x7d", rfl, rfl⟩)
  ⟨by decide, by decide, h.1, h.2.1, h.2.2.1.2 (by decide), h.2.2.2.1.2 (by decide),
    h.2.2.2.2⟩

/-- C4 as stated fails: on a proxy whose request counter stands at the largest
`int`, a POST that decodes and whose publish is refused leaves `numReqs` at the
smallest `int`, not one higher. -/
theorem addresses_forward_error_wraps :
    Reference.post.Method = MethodPost ∧
    Reference.post.Body = Except.ok "\x7b\"k1\":[\"10.0.0.1\",\"10.0.0.2\"]\x7d" ∧
    Reference.envDown.UnmarshalJSON "\x7b\"k1\":[\"10.0.0.1\",\"10.0.0.2\"]\x7d"
      = Except.ok [("k1", ["10.0.0.1", "10.0.0.2"])] ∧
    (Reference.proxyAtMax.forward Reference.envDown).2 = some "dial tcp: connection refused" ∧
    (getAddressesHandler Reference.envDown Reference.proxyAtMax ResponseWriter.fresh
        Reference.post).1.stats.numReqs = minInt ∧
    (getAddressesHandler Reference.envDown Reference.proxyAtMax ResponseWriter.fresh
        Reference.post).1.stats.numReqs ≠ Reference.proxyAtMax.stats.numReqs + 1 := by
  refine ⟨rfl, rfl, rfl, rfl, ?_, ?_⟩
  · rw [handler_numReqs]; decide
  · rw [handler_numReqs]; decide

theorem statsInv_inc_reqs (s : statistics) (h : statsInv s) (hr : s.numReqs < maxInt) :
    statsInv (s.inc typeNumReqs) := by
  obtain ⟨h1, h2, h3, h4⟩ := h
  have hw := wrapInt_succ s.numReqs ⟨by unfold minInt; omega, hr⟩
  simp only [statsInv, statistics.inc, if_true, hw]
  refine ⟨?_, h2, h3, ?_⟩ <;> omega

/-- C6 (amended): `numReqs ≥ numGoodFwds + numBadFwds`, with the three counters
non-negative, holds on the proxy `newKafkaProxy` returns; it holds at every
point of a run of the `/addresses` handler that starts where it holds with
`numReqs` below the largest `int`; the `/status` handler keeps it; hence it
holds in every state a run from a fresh proxy can be observed in while one of
the first `maxInt` requests to `/addresses` is handled. -/
theorem counters_invariant (env : Env W) :
    (∀ kafkaBroker cert p, newKafkaProxy env kafkaBroker cert = Except.ok p →
      statsInv p.stats) ∧
    (∀ p r, statsInv p.stats → p.stats.numReqs < maxInt →
      ∀ q ∈ getAddressesHandlerSteps env p r, statsInv q.stats) ∧
    (∀ (p : kafkaProxy W) w r, statsInv p.stats → statsInv (getStatusHandler p w r).1.stats) ∧
    (∀ n q, ObservableIn env n q → (n : Int) < maxInt → statsInv q.stats) := by
  have hinit : ∀ kafkaBroker cert p, newKafkaProxy env kafkaBroker cert = Except.ok p →
      statsInv p.stats := by
    intro kafkaBroker cert p h
    rw [(newKafkaProxy_stats env kafkaBroker cert p h).1]
    decide
  have hsteps : ∀ p r, statsInv p.stats → p.stats.numReqs < maxInt →
      ∀ q ∈ getAddressesHandlerSteps env p r, statsInv q.stats := by
    intro p r hp hlt q hq
    have h1 := statsInv_inc_reqs p.stats hp hlt
    unfold getAddressesHandlerSteps at hq
    by_cases hm : r.Method = MethodPost
    · simp only [hm, ne_eq, not_true_eq_false, if_false] at hq
      cases hb : r.Body with
      | error e =>
        rw [hb] at hq
        simp only [List.mem_cons, List.mem_singleton, List.not_mem_nil, or_false] at hq
        rcases hq with rfl | rfl
        · exact hp
        · exact h1
      | ok body =>
        rw [hb] at hq
        dsimp only at hq
        cases hd : env.UnmarshalJSON body with
        | error e =>
          rw [hd] at hq
          simp only [List.mem_cons, List.mem_singleton, List.not_mem_nil, or_false] at hq
          rcases hq with rfl | rfl
          · exact hp
          · exact h1
        | ok P =>
          rw [hd] at hq
          dsimp only at hq
          have hfs := forward_stats env ({ p with stats := p.stats.inc typeNumReqs })
          rcases hf : ({ p with stats := p.stats.inc typeNumReqs } : kafkaProxy W).forward env
            with ⟨p2, _ | e⟩
          all_goals
            rw [hf] at hq hfs
            simp only at hfs
            simp only [List.mem_cons, List.mem_singleton, List.not_mem_nil, or_false] at hq
            obtain ⟨g1, g2, g3, g4⟩ := hp
            have hw := wrapInt_succ p.stats.numReqs ⟨by unfold minInt; omega, hlt⟩
            have hg := wrapInt_succ p.stats.numGoodFwds
              ⟨by unfold minInt; omega, by omega⟩
            have hbd := wrapInt_succ p.stats.numBadFwds
              ⟨by unfold minInt; omega, by omega⟩
            rcases hq with rfl | rfl | rfl | rfl
            · exact ⟨g1, g2, g3, g4⟩
            · exact h1
            · rw [hfs]; exact h1
            · simp only [hfs, statsInv, statistics.inc, typeNumReqs, typeNumGoodFwds,
                typeNumBadFwds, if_true]
              simp [hw, hg, hbd]
              omega
    · simp only [hm, ne_eq, not_false_eq_true, if_true] at hq
      simp only [List.mem_cons, List.mem_singleton, List.not_mem_nil, or_false] at hq
      rcases hq with rfl | rfl
      · exact hp
      · exact h1
  have hstatus : ∀ (p : kafkaProxy W) w r, statsInv p.stats →
      statsInv (getStatusHandler p w r).1.stats := by
    intro p w r hp
    rw [statusHandler_eq]
    exact hp
  have hreach : ∀ n p, ReachableIn env n p → (n : Int) ≤ maxInt →
      statsInv p.stats ∧ p.stats.numReqs = n := by
    intro n p hp
    induction hp with
    | start kafkaBroker cert p h =>
      intro _
      refine ⟨hinit kafkaBroker cert p h, ?_⟩
      rw [(newKafkaProxy_stats env kafkaBroker cert p h).1]
      rfl
    | addresses n p w r _ ih =>
      intro hn
      push_cast at hn
      obtain ⟨hinv, hnum⟩ := ih (by omega)
      have hlt : p.stats.numReqs < maxInt := by omega
      refine ⟨hsteps p r hinv hlt _ (List.mem_of_getLast?_eq_some (steps_last env p w r)), ?_⟩
      rw [handler_numReqs, wrapInt_succ _ ⟨by unfold minInt; omega, hlt⟩, hnum]
      push_cast
      rfl
    | status n p w r _ ih =>
      intro hn
      rw [statusHandler_eq]
      exact ih hn
  refine ⟨hinit, hsteps, hstatus, ?_⟩
  intro n q hq hn
  cases hq
  rename_i p r hp hmem
  obtain ⟨hinv, hnum⟩ := hreach n p hp (by omega)
  exact hsteps p r hinv (by omega) q hmem

/-- Witness of C6: the state a fresh proxy is in after one handled submission. -/
theorem counters_invariant_witness :
    ObservableIn Reference.env 0
      (getAddressesHandler Reference.env Reference.proxy ResponseWriter.fresh
        Reference.post).1 ∧
    ((0 : Nat) : Int) < maxInt ∧
    statsInv (getAddressesHandler Reference.env Reference.proxy ResponseWriter.fresh
      Reference.post).1.stats :=
  have h : ObservableIn Reference.env 0
      (getAddressesHandler Reference.env Reference.proxy ResponseWriter.fresh
        Reference.post).1 :=
    ObservableIn.within 0 Reference.proxy _ Reference.post
      (ReachableIn.start (some "broker:9092") (Except.ok ()) Reference.proxy rfl)
      (List.mem_of_getLast?_eq_some
        (steps_last Reference.env Reference.proxy ResponseWriter.fresh Reference.post))
  ⟨h, by decide, (counters_invariant Reference.env).2.2.2 0 _ h (by decide)⟩

/-- C6 as stated fails: the invariant holds on the counters (`maxInt`, 0, 0) and
is lost by the first step of the `/addresses` handler, which wraps `numReqs` to
the smallest `int`. -/
theorem counters_invariant_breaks :
    statsInv Reference.proxyAtMax.stats ∧
    ({ Reference.proxyAtMax with stats := Reference.proxyAtMax.stats.inc typeNumReqs }
      ∈ getAddressesHandlerSteps Reference.env Reference.proxyAtMax Reference.post) ∧
    ¬ statsInv (Reference.proxyAtMax.stats.inc typeNumReqs) ∧
    ¬ statsInv (getAddressesHandler Reference.env Reference.proxyAtMax ResponseWriter.fresh
      Reference.post).1.stats := by
  refine ⟨by decide, ?_, by decide, ?_⟩
  · exact List.Mem.tail _ (List.Mem.head _)
  · intro h
    have h0 := h.1
    rw [handler_numReqs] at h0
    revert h0
    decide

/-! ### Shared lemmas on goroutines running side by side -/

theorem forward_addrs (env : Env W) (p : kafkaProxy W) :
    (p.forward env).1.addrs = p.addrs := by
  unfold kafkaProxy.forward
  cases env.Marshal p.addrs with
  | error e => rfl
  | ok v =>
    dsimp only
    cases env.WriteMessages p.writer { Key := none, Value := v } <;> rfl

theorem inRange_inc (s : statistics) (k : Int) (h : inRange s) : inRange (s.inc k) := by
  obtain ⟨h1, h2, h3⟩ := h
  unfold statistics.inc
  split_ifs
  · exact ⟨wrapInt_range _, h2, h3⟩
  · exact ⟨h1, wrapInt_range _, h3⟩
  · exact ⟨h1, h2, wrapInt_range _⟩
  · exact ⟨h1, h2, h3⟩

/-- A goroutine run on its own takes the proxy where the handler takes it. -/
theorem runThread_handler (env : Env W) (p : kafkaProxy W) (w : ResponseWriter)
    (r : Request) :
    runThread env r 3 (p, Pc.start) = ((getAddressesHandler env p w r).1, Pc.done) := by
  unfold getAddressesHandler
  simp only [runThread, threadStep, accepted]
  by_cases hm : r.Method = MethodPost
  · simp only [hm, ne_eq, not_true_eq_false, if_false]
    cases r.Body with
    | error e => rfl
    | ok body =>
      dsimp only
      cases env.UnmarshalJSON body with
      | error e => rfl
      | ok P =>
        dsimp only
        rcases hf : ({ p with stats := p.stats.inc typeNumReqs } : kafkaProxy W).forward env
          with ⟨p2, _ | e⟩ <;> simp [threadStep, hf]
  · simp only [hm, ne_eq, not_false_eq_true, if_true]
    rfl

theorem mem_replace {α : Type} (before after : List α) (x y t : α)
    (h : t ∈ before ++ y :: after) : t = y ∨ t ∈ before ++ x :: after := by
  simp only [List.mem_append, List.mem_cons] at h ⊢
  tauto

theorem reqsLeft_split (before after : List (Request × Pc)) (r : Request) (pc : Pc) :
    reqsLeft (before ++ (r, pc) :: after) =
      reqsLeft before + (if pc = Pc.start then 1 else 0) + reqsLeft after := by
  unfold reqsLeft
  rw [List.countP_append, List.countP_cons]
  by_cases h : pc = Pc.start
  · simp [h]; omega
  · simp [h]

theorem fwdsLeft_split (before after : List (Request × Pc)) (r : Request) (pc : Pc) :
    fwdsLeft (before ++ (r, pc) :: after) =
      fwdsLeft before + (if pc = Pc.done then 0 else 1) + fwdsLeft after := by
  unfold fwdsLeft
  rw [List.countP_append, List.countP_cons]
  by_cases h : pc = Pc.done
  · simp [h]
  · simp [h]; omega

theorem interleave_counts (env : Env W) (v : String)
    (hw : ∀ w m, env.WriteMessages w m = none)
    (ts : List (Request × Pc)) (p q : kafkaProxy W) (h : Interleave env ts p q)
    (hj : env.Marshal p.addrs = Except.ok v) (hr : inRange p.stats)
    (hne : ∀ t ∈ ts, ∀ e, t.2 ≠ Pc.forwarded (some e))
    (hacc : ∀ t ∈ ts, t.2 = Pc.start → accepted env t.1 = true) :
    q.stats.numReqs = wrapInt (p.stats.numReqs + reqsLeft ts) ∧
    q.stats.numGoodFwds = wrapInt (p.stats.numGoodFwds + fwdsLeft ts) ∧
    q.stats.numBadFwds = p.stats.numBadFwds := by
  induction h with
  | finished ts p hdone =>
    have h1 : reqsLeft ts = 0 := by
      unfold reqsLeft
      rw [List.countP_eq_zero]
      intro t ht
      simp [hdone t ht]
    have h2 : fwdsLeft ts = 0 := by
      unfold fwdsLeft
      rw [List.countP_eq_zero]
      intro t ht
      simp [hdone t ht]
    obtain ⟨⟨a1, a2⟩, ⟨b1, b2⟩, _⟩ := hr
    simp [h1, h2, wrapInt_id _ a1 a2, wrapInt_id _ b1 b2]
  | step before after r pc pc1 p p1 q hstep hrest ih =>
    have hmem : (r, pc) ∈ before ++ (r, pc) :: after := by simp
    have hpc := hne (r, pc) hmem
    rw [reqsLeft_split, fwdsLeft_split]
    rw [reqsLeft_split, fwdsLeft_split] at ih
    cases pc with
    | start =>
      have ha : accepted env r = true := hacc (r, Pc.start) hmem rfl
      simp only [threadStep, ha, if_true, Option.some.injEq, Prod.mk.injEq] at hstep
      obtain ⟨rfl, rfl⟩ := hstep
      have ih1 := ih hj (inRange_inc _ _ hr)
        (fun t ht e => by
          rcases mem_replace before after (r, Pc.start) _ t ht with rfl | ht1
          · simp
          · exact hne t ht1 e)
        (fun t ht hs => by
          rcases mem_replace before after (r, Pc.start) _ t ht with rfl | ht1
          · simp at hs
          · exact hacc t ht1 hs)
      obtain ⟨i1, i2, i3⟩ := ih1
      simp only [statistics.inc, if_true] at i1 i2 i3
      rw [wrapInt_wrapInt_add] at i1
      refine ⟨?_, ?_, i3⟩
      · rw [i1]; congr 1; simp; omega
      · rw [i2]; simp
    | counted =>
      simp only [threadStep, Option.some.injEq, Prod.mk.injEq] at hstep
      obtain ⟨rfl, rfl⟩ := hstep
      have hf : (p.forward env).2 = none := by
        rw [forward_write env p v hj]
        exact hw _ _
      have ih1 := ih (by rw [forward_addrs]; exact hj) (by rw [forward_stats]; exact hr)
        (fun t ht e => by
          rcases mem_replace before after (r, Pc.counted) _ t ht with rfl | ht1
          · simp [hf]
          · exact hne t ht1 e)
        (fun t ht hs => by
          rcases mem_replace before after (r, Pc.counted) _ t ht with rfl | ht1
          · simp at hs
          · exact hacc t ht1 hs)
      obtain ⟨i1, i2, i3⟩ := ih1
      rw [forward_stats] at i1 i2 i3
      refine ⟨?_, ?_, i3⟩
      · rw [i1]; simp
      · rw [i2]; simp
    | forwarded err =>
      cases err with
      | some e => exact absurd rfl (hpc e)
      | none =>
        simp only [threadStep, Option.some.injEq, Prod.mk.injEq] at hstep
        obtain ⟨rfl, rfl⟩ := hstep
        have ih1 := ih hj (inRange_inc _ _ hr)
          (fun t ht e => by
            rcases mem_replace before after (r, Pc.forwarded none) _ t ht with rfl | ht1
            · simp
            · exact hne t ht1 e)
          (fun t ht hs => by
            rcases mem_replace before after (r, Pc.forwarded none) _ t ht with rfl | ht1
            · simp at hs
            · exact hacc t ht1 hs)
        obtain ⟨i1, i2, i3⟩ := ih1
        simp only [statistics.inc, typeNumReqs, typeNumGoodFwds, typeNumBadFwds] at i1 i2 i3
        simp at i1 i2 i3
        rw [wrapInt_wrapInt_add] at i2
        refine ⟨?_, ?_, i3⟩
        · rw [i1]; simp
        · rw [i2]; congr 1; simp; omega
    | done => simp [threadStep] at hstep

theorem threadStep_some (env : Env W) (p : kafkaProxy W) (r : Request) (pc : Pc)
    (h : pc ≠ Pc.done) :
    ∃ p1 pc1, threadStep env p r pc = some (p1, pc1) ∧ stepsLeft pc1 < stepsLeft pc := by
  cases pc with
  | start =>
    refine ⟨_, _, rfl, ?_⟩
    by_cases ha : accepted env r = true <;> simp [ha, stepsLeft]
  | counted => exact ⟨_, _, rfl, by simp [stepsLeft]⟩
  | forwarded err =>
    cases err with
    | some e => exact ⟨_, _, rfl, by simp [stepsLeft]⟩
    | none => exact ⟨_, _, rfl, by simp [stepsLeft]⟩
  | done => exact absurd rfl h

/-- Every set of goroutines has a complete run from every proxy state. -/
theorem interleave_exists (env : Env W) (n : Nat) :
    ∀ (ts : List (Request × Pc)) (p : kafkaProxy W), workLeft ts ≤ n →
      ∃ q, Interleave env ts p q := by
  induction n with
  | zero =>
    intro ts p h
    refine ⟨p, Interleave.finished ts p ?_⟩
    intro t ht
    by_contra hnd
    obtain ⟨before, after, rfl⟩ := List.append_of_mem ht
    have : 0 < stepsLeft t.2 := by
      cases hpc : t.2 <;> simp_all [stepsLeft]
    simp [workLeft] at h
    omega
  | succ n ih =>
    intro ts p h
    by_cases hall : ∀ t ∈ ts, t.2 = Pc.done
    · exact ⟨p, Interleave.finished ts p hall⟩
    · push_neg at hall
      obtain ⟨⟨r, pc⟩, ht, hnd⟩ := hall
      obtain ⟨before, after, rfl⟩ := List.append_of_mem ht
      obtain ⟨p1, pc1, hstep, hlt⟩ := threadStep_some env p r pc hnd
      have hwork : workLeft (before ++ (r, pc1) :: after) ≤ n := by
        simp only [workLeft, List.map_append, List.map_cons, List.sum_append,
          List.sum_cons] at h ⊢
        omega
      obtain ⟨q, hq⟩ := ih _ p1 hwork
      exact ⟨q, Interleave.step before after r pc pc1 p p1 q hstep hq⟩

theorem reqsLeft_spawn (rs : List Request) : reqsLeft (spawn rs) = rs.length := by
  induction rs with
  | nil => rfl
  | cons r rs ih =>
    simp only [reqsLeft, spawn, List.map_cons, List.length_cons] at ih ⊢
    rw [List.countP_cons, ih]
    simp

theorem fwdsLeft_spawn (rs : List Request) : fwdsLeft (spawn rs) = rs.length := by
  induction rs with
  | nil => rfl
  | cons r rs ih =>
    simp only [fwdsLeft, spawn, List.map_cons, List.length_cons] at ih ⊢
    rw [List.countP_cons, ih]
    simp

/-- The counters after any complete run of the goroutines serving accepted
requests `rs` on a proxy with zeroed counters whose forwards succeed. -/
theorem spawn_counts (env : Env W) (v : String) (p q : kafkaProxy W) (rs : List Request)
    (hs : p.stats = { numReqs := 0, numGoodFwds := 0, numBadFwds := 0 })
    (hj : env.Marshal p.addrs = Except.ok v)
    (hw : ∀ w m, env.WriteMessages w m = none)
    (hacc : ∀ r ∈ rs, accepted env r = true)
    (h : Interleave env (spawn rs) p q) :
    q.stats.numReqs = wrapInt rs.length ∧ q.stats.numGoodFwds = wrapInt rs.length ∧
      q.stats.numBadFwds = 0 := by
  have hr : inRange p.stats := by
    rw [hs]
    unfold inRange minInt maxInt
    decide
  have hc := interleave_counts env v hw (spawn rs) p q h hj hr
    (fun t ht e => by
      simp only [spawn, List.mem_map] at ht
      obtain ⟨r, _, rfl⟩ := ht
      simp)
    (fun t ht _ => by
      simp only [spawn, List.mem_map] at ht
      obtain ⟨r, hr, rfl⟩ := ht
      exact hacc r hr)
  rw [reqsLeft_spawn, fwdsLeft_spawn, hs] at hc
  simpa using hc

/-- C10 (amended): for every number N of POST requests, at most the largest
`int`, whose bodies decode and whose forwards succeed, handled side by side on
the proxy `newKafkaProxy` returns: a complete run exists, and every
interleaving of the atomic steps of the handlers ends with `numReqs = N`,
`numGoodFwds = N` and `numBadFwds = 0`. -/
theorem concurrent_posts_counted (env : Env W) (kafkaBroker : Option String)
    (cert : Except String Unit) (p0 : kafkaProxy W) (rs : List Request) (v : String)
    (h0 : newKafkaProxy env kafkaBroker cert = Except.ok p0)
    (hacc : ∀ r ∈ rs, accepted env r = true)
    (hj : env.Marshal env.makeWallets = Except.ok v)
    (hw : ∀ w m, env.WriteMessages w m = none)
    (hN : (rs.length : Int) ≤ maxInt) :
    (∃ q, Interleave env (spawn rs) p0 q) ∧
    ∀ q, Interleave env (spawn rs) p0 q →
      q.stats.numReqs = rs.length ∧ q.stats.numGoodFwds = rs.length ∧
        q.stats.numBadFwds = 0 := by
  obtain ⟨hs, ha, _⟩ := newKafkaProxy_stats env kafkaBroker cert p0 h0
  refine ⟨interleave_exists env _ (spawn rs) p0 (le_refl _), ?_⟩
  intro q hq
  have hc := spawn_counts env v p0 q rs hs (by rw [ha]; exact hj) hw hacc hq
  have hid : wrapInt rs.length = rs.length :=
    wrapInt_id _ (by unfold minInt; omega) hN
  rw [hid] at hc
  exact hc

/-- Witness of C10: two submissions on a fresh proxy, the second goroutine
overtaking the first between the count of the request and the forward. -/
theorem concurrent_posts_counted_witness :
    newKafkaProxy Reference.env (some "broker:9092") (Except.ok ()) = Except.ok Reference.proxy ∧
    Interleave Reference.env (spawn [Reference.post, Reference.post]) Reference.proxy
      { writer := { sent := [{ Key := none, Value := "\x7b\x7d" },
          { Key := none, Value := "\x7b\x7d" }] }
        stats := { numReqs := 2, numGoodFwds := 2, numBadFwds := 0 }
        addrs := [] } ∧
    ∀ q, Interleave Reference.env (spawn [Reference.post, Reference.post]) Reference.proxy q →
      q.stats.numReqs = 2 ∧ q.stats.numGoodFwds = 2 ∧ q.stats.numBadFwds = 0 :=
  ⟨rfl,
    Interleave.step [] [(Reference.post, Pc.start)] Reference.post Pc.start Pc.counted
      _ _ _ rfl
      (Interleave.step [(Reference.post, Pc.counted)] [] Reference.post Pc.start Pc.counted
        _ _ _ rfl
        (Interleave.step [(Reference.post, Pc.counted)] [] Reference.post Pc.counted
          (Pc.forwarded none) _ _ _ rfl
          (Interleave.step [] [(Reference.post, Pc.forwarded none)] Reference.post Pc.counted
            (Pc.forwarded none) _ _ _ rfl
            (Interleave.step [] [(Reference.post, Pc.forwarded none)] Reference.post
              (Pc.forwarded none) Pc.done _ _ _ rfl
              (Interleave.step [(Reference.post, Pc.done)] [] Reference.post
                (Pc.forwarded none) Pc.done _ _ _ rfl
                (Interleave.finished _ _ (by
                  intro t ht
                  simp only [List.cons_append, List.nil_append, List.mem_cons,
                    List.mem_singleton, List.not_mem_nil, or_false] at ht
                  rcases ht with rfl | rfl <;> rfl))))))),
    (concurrent_posts_counted Reference.env (some "broker:9092") (Except.ok ())
      Reference.proxy [Reference.post, Reference.post] "\x7b\x7d" rfl
      (by
        intro r hr
        simp only [List.mem_cons, List.mem_singleton, List.not_mem_nil, or_false,
          or_self] at hr
        subst hr
        rfl)
      rfl (fun _ _ => rfl) (by decide)).2⟩

/-- C10 as stated fails: with N = 2^63 submissions handled side by side on a
fresh proxy a complete run exists, and every complete run ends with `numReqs`
at the smallest `int`, not at N. -/
theorem concurrent_posts_wrap :
    (∃ q, Interleave Reference.env
      (spawn (List.replicate 9223372036854775808 Reference.post)) Reference.proxy q) ∧
    ∀ q, Interleave Reference.env
        (spawn (List.replicate 9223372036854775808 Reference.post)) Reference.proxy q →
      q.stats.numReqs = minInt ∧ q.stats.numReqs ≠ 9223372036854775808 := by
  refine ⟨interleave_exists Reference.env _ _ Reference.proxy (le_refl _), ?_⟩
  intro q hq
  have hc := spawn_counts Reference.env "\x7b\x7d" Reference.proxy q
    (List.replicate 9223372036854775808 Reference.post) rfl rfl (fun _ _ => rfl)
    (fun r hr => by rw [List.eq_of_mem_replicate hr]; rfl) hq
  rw [List.length_replicate] at hc
  have hwrap : wrapInt ((9223372036854775808 : Nat) : Int) = minInt := by decide
  rw [hwrap] at hc
  refine ⟨hc.1, ?_⟩
  rw [hc.1]
  decide

end Kafkaproxy

namespace Socksproxy

open Go

variable {Ctx : Type}

/-! ### Shared lemmas on the two loops of `Allow` -/

theorem rangeAddrs_eq (ipString : IP → String) (ctx : Ctx) (req : Request)
    (log : List String) (l : List IP) :
    Allow.rangeAddrs ipString ctx req log l =
      if l.any (fun addr => req.DestAddr.IP.Equal addr) then
        some ((ctx, allowed), logConn ipString log allowed req.RemoteAddr req.DestAddr)
      else none := by
  induction l with
  | nil => rfl
  | cons addr rest ih =>
    unfold Allow.rangeAddrs
    by_cases h : req.DestAddr.IP.Equal addr = true
    · simp [h]
    · simp only [h, if_false, ih, List.any_cons, Bool.not_eq_true] at *
      simp [h]

theorem rangeFqdns_eq (ipString : IP → String) (ctx : Ctx) (req : Request)
    (log : List String) (l : List String) :
    Allow.rangeFqdns ipString ctx req log l =
      if req.DestAddr.FQDN ∈ l then
        some ((ctx, allowed), logConn ipString log allowed req.RemoteAddr req.DestAddr)
      else none := by
  induction l with
  | nil => rfl
  | cons fqdn rest ih =>
    unfold Allow.rangeFqdns
    by_cases h : req.DestAddr.FQDN = fqdn
    · simp [h]
    · simp [h, ih]

/-- The decision of `Allow` and the single line it logs. -/
theorem Allow_eq (ipString : IP → String) (m : myRule) (ctx : Ctx) (req : Request)
    (log : List String) :
    m.Allow ipString ctx req log =
      ((ctx, (m.addrs.any (fun addr => req.DestAddr.IP.Equal addr)
          || decide (req.DestAddr.FQDN ∈ m.fqdns))),
        logConn ipString log
          (m.addrs.any (fun addr => req.DestAddr.IP.Equal addr)
            || decide (req.DestAddr.FQDN ∈ m.fqdns))
          req.RemoteAddr req.DestAddr) := by
  unfold myRule.Allow
  rw [rangeAddrs_eq, rangeFqdns_eq]
  by_cases h1 : m.addrs.any (fun addr => req.DestAddr.IP.Equal addr) = true
  · simp [h1, allowed]
  · by_cases h2 : req.DestAddr.FQDN ∈ m.fqdns
    · simp [h1, h2, allowed]
    · simp [h1, h2, denied]

theorem sprintf_logConn (a b d e g : String) (c f : Int) :
    Sprintf "%s connection request from %s:%d (%s) to %s:%d (%s)."
        [Arg.str a, Arg.str b, Arg.int c, Arg.str d, Arg.str e, Arg.int f, Arg.str g] =
      a ++ " connection request from " ++ b ++ ":" ++ fmtInt c ++ " (" ++ d ++ ") to " ++
        e ++ ":" ++ fmtInt f ++ " (" ++ g ++ ")." := by
  apply String.ext
  simp [Sprintf, doPrintf, fmtVerb, String.singleton]

/-- C1: `Allow` returns allow exactly when the destination IP is `Equal` to an
allowed IP or the destination FQDN is one of the allowed FQDNs, and deny
otherwise; the context comes back unchanged.  With allowed IP 10.0.0.5 a request
to 10.0.0.5 is allowed and one to 10.0.0.6 is denied; with allowed FQDN
acme-v02.api.letsencrypt.org a request for evil.example.com at an unlisted IP is
denied. -/
theorem allow_iff (ipString : IP → String) (m : myRule) (ctx : Ctx) (req : Request)
    (log : List String) :
    ((m.Allow ipString ctx req log).1.2 = allowed ↔
      (∃ addr ∈ m.addrs, req.DestAddr.IP.Equal addr = true) ∨
      (∃ fqdn ∈ m.fqdns, req.DestAddr.FQDN = fqdn)) ∧
    ((m.Allow ipString ctx req log).1.2 = denied ↔
      ¬ ((∃ addr ∈ m.addrs, req.DestAddr.IP.Equal addr = true) ∨
        (∃ fqdn ∈ m.fqdns, req.DestAddr.FQDN = fqdn))) ∧
    (m.Allow ipString ctx req log).1.1 = ctx ∧
    (myRule.Allow ipString { addrs := [[10, 0, 0, 5]], fqdns := [] } ctx
      { RemoteAddr := req.RemoteAddr
        DestAddr := { FQDN := "", IP := [10, 0, 0, 5], Port := 9092 } } log).1.2 = allowed ∧
    (myRule.Allow ipString { addrs := [[10, 0, 0, 5]], fqdns := [] } ctx
      { RemoteAddr := req.RemoteAddr
        DestAddr := { FQDN := "", IP := [10, 0, 0, 6], Port := 9092 } } log).1.2 = denied ∧
    (myRule.Allow ipString { addrs := [], fqdns := ["acme-v02.api.letsencrypt.org"] } ctx
      { RemoteAddr := req.RemoteAddr
        DestAddr :=
          { FQDN := "acme-v02.api.letsencrypt.org", IP := [172, 65, 32, 248], Port := 443 } }
      log).1.2 = allowed ∧
    (myRule.Allow ipString
      { addrs := [[10, 0, 0, 5]], fqdns := ["acme-v02.api.letsencrypt.org"] } ctx
      { RemoteAddr := req.RemoteAddr
        DestAddr := { FQDN := "evil.example.com", IP := [203, 0, 113, 7], Port := 443 } }
      log).1.2 = denied := by
  refine ⟨?_, ?_, ?_, ?_, ?_, ?_, ?_⟩
  · rw [Allow_eq]
    simp [allowed]
  · rw [Allow_eq]
    simp [denied]
  · rw [Allow_eq]
  · rw [Allow_eq]; rfl
  · rw [Allow_eq]; rfl
  · rw [Allow_eq]; rfl
  · rw [Allow_eq]; rfl

/-- C9: one call of `Allow` appends exactly one line to the log, whatever the
decision; the line starts with "Allowing" exactly when the decision is allow
and with "Denying" exactly when it is deny, and goes on with the IP, port and
FQDN of the source, then those of the destination. -/
theorem allow_logs_once (ipString : IP → String) (m : myRule) (ctx : Ctx) (req : Request)
    (log : List String) :
    ∃ line rest : String,
      (m.Allow ipString ctx req log).2 = log ++ [line] ∧
      rest = " connection request from " ++
        ipString req.RemoteAddr.IP ++ ":" ++ fmtInt req.RemoteAddr.Port ++
        " (" ++ req.RemoteAddr.FQDN ++ ") to " ++
        ipString req.DestAddr.IP ++ ":" ++ fmtInt req.DestAddr.Port ++
        " (" ++ req.DestAddr.FQDN ++ ")." ∧
      ((m.Allow ipString ctx req log).1.2 = allowed → line = "Allowing" ++ rest) ∧
      ((m.Allow ipString ctx req log).1.2 = denied → line = "Denying" ++ rest) ∧
      ("Allowing".data <+: line.data ↔ (m.Allow ipString ctx req log).1.2 = allowed) ∧
      ("Denying".data <+: line.data ↔ (m.Allow ipString ctx req log).1.2 = denied) := by
  rw [Allow_eq]
  simp only [logConn, logPrintf, sprintf_logConn]
  refine ⟨_, _, rfl, rfl, ?_⟩
  cases (m.addrs.any (fun addr => req.DestAddr.IP.Equal addr)
    || decide (req.DestAddr.FQDN ∈ m.fqdns))
  · refine ⟨?_, ?_, ?_, ?_⟩
    · simp [allowed]
    · intro _
      apply String.ext
      simp [String.data_append]
    · simp [allowed, String.data_append]
    · simp [denied, String.data_append]
  · refine ⟨?_, ?_, ?_, ?_⟩
    · intro _
      apply String.ext
      simp [String.data_append]
    · simp [denied]
    · simp [allowed, String.data_append]
    · simp [denied, String.data_append]

end Socksproxy
